import Mathlib

/-!
Shallow embedding of the LectureSense recording core.

The embedding covers:
* `RecorderService` (src/services/recorderService.ts) — a sequential
  event-step semantics over an explicit `Recorder` state, with an
  observation trace recording every callback/effect together with a
  snapshot of the fields visible at the moment of emission;
* the audio-track validation of the standalone `startRecording` variant
  in src/App.tsx;
* `extractResponseText` (src/services/geminiService.ts) — over a model
  of JavaScript runtime values.

JS numbers carry no NaN here (an `Int` model); machine overflow plays no
role in this code. Exceptions are modelled as `Option JsErr` results,
and the browser event loop as an explicit list of events fed to `step`.
-/

namespace LectureSense

/-! ## Data model for the recorder (recorderService.ts) -/

/-- RecorderState from recorderService.ts line 17. -/
inductive RecState where
  | idle
  | recording
  | stopping
  | error
deriving DecidableEq, Repr

/-- Kind of a MediaStreamTrack (audio or video). -/
inductive TrackKind where
  | audio
  | video
deriving DecidableEq, Repr

/-- Model of a MediaStreamTrack: its kind, and whether its `stop()`
raises (the platform normally guarantees it does not; the flag lets the
partial-failure claims be stated). -/
structure Track where
  kind : TrackKind
  stopThrows : Bool
deriving DecidableEq, Repr

/-- Model of a MediaStream: an identity (to distinguish capture handles)
and its tracks. -/
structure MStream where
  id : Nat
  tracks : List Track
deriving DecidableEq, Repr

/-- Model of a MediaRecorder: `active` is true while its state is not
`inactive`; `stopRequested` is true between a `stop()` call on it and
the delivery of its `onstop` event. -/
structure MRec where
  active : Bool
  stopRequested : Bool
deriving DecidableEq, Repr

/-- Model of a JavaScript Error: its `name` and `message`. -/
structure JsErr where
  name : String
  message : String
deriving DecidableEq, Repr

/-- The mutable fields of a `RecorderService` instance, plus bookkeeping
for the event loop: `activeIntervals` lists the live interval timers
whose callbacks tick this instance (the TS field `timerInterval` only
remembers the most recent id, so an overwritten interval stays live),
`pendingStarts` counts `start()` calls suspended at the
`getDisplayMedia` await, and `videoOnendedHooked` records that an
`onended` handler was installed on a video track. -/
structure Recorder where
  mediaRecorder : Option MRec
  stream : Option MStream
  chunks : List Nat
  timerInterval : Option Nat
  activeIntervals : List Nat
  nextTimerId : Nat
  elapsedSeconds : Nat
  state : RecState
  previewElement : Bool
  previewSrc : Option Nat
  pendingStarts : Nat
  videoOnendedHooked : Bool
deriving DecidableEq, Repr

/-- A fresh `RecorderService` instance (constructor, line 48). -/
def Recorder.init : Recorder :=
  { mediaRecorder := none
    stream := none
    chunks := []
    timerInterval := none
    activeIntervals := []
    nextTimerId := 0
    elapsedSeconds := 0
    state := .idle
    previewElement := false
    previewSrc := none
    pendingStarts := 0
    videoOnendedHooked := false }

/-- An emitted callback or effect. -/
inductive Ev where
  | onStateChange (s : RecState)
  | onDataAvailable (size : Nat)
  | onStop (blob : List Nat)
  | onError (name message : String)
  | onTimeUpdate (n : Nat)
  | warn (msg : String)
  | trackStop (streamId idx : Nat)
  | encStopReq
deriving DecidableEq, Repr

/-- An observation: the emitted event together with a snapshot of the
session state and the held stream id at the moment of emission. -/
structure Obs where
  ev : Ev
  state : RecState
  streamId : Option Nat
deriving DecidableEq, Repr

/-- Snapshot helper: pair an event with the current field values. -/
def emit (r : Recorder) (e : Ev) : Obs :=
  ⟨e, r.state, r.stream.map MStream.id⟩

/-! ## Recorder operations, translated from recorderService.ts -/

/-- setState (line 205): assign the state field, then invoke the
`onStateChange` callback. -/
def setState (r : Recorder) (s : RecState) : Recorder × List Obs :=
  let r' := { r with state := s }
  (r', [emit r' (.onStateChange s)])

/-- startTimer (line 210): reset elapsed to 0, fire `onTimeUpdate 0`,
then install a fresh interval; the field is overwritten without
clearing any previous interval. -/
def startTimer (r : Recorder) : Recorder × List Obs :=
  let r1 := { r with elapsedSeconds := 0 }
  let o1 := emit r1 (.onTimeUpdate 0)
  let i := r1.nextTimerId
  let r2 := { r1 with
    activeIntervals := r1.activeIntervals ++ [i]
    timerInterval := some i
    nextTimerId := i + 1 }
  (r2, [o1])

/-- stopTimer (line 220): clear the interval the field refers to. -/
def stopTimer (r : Recorder) : Recorder :=
  match r.timerInterval with
  | some i =>
      { r with
        activeIntervals := r.activeIntervals.filter (fun j => j ≠ i)
        timerInterval := none }
  | none => r

/-- The `stream.getTracks().forEach((track) => track.stop())` loop of
cleanupStream (line 253): stops tracks in order; a raising `stop()`
aborts the loop and the error propagates (there is no per-track
try/catch in the source). Returns the stop effects for the tracks
reached and the error, if one was raised. -/
def stopTracks (r : Recorder) (sid : Nat) : List Track → Nat → List Obs × Option JsErr
  | [], _ => ([], none)
  | t :: rest, i =>
      if t.stopThrows then
        ([], some ⟨"Error", "track stop failed"⟩)
      else
        let (os, e) := stopTracks r sid rest (i + 1)
        (emit r (.trackStop sid i) :: os, e)

/-- cleanupStream (line 251): stop every track, then null the stream
field. If a track's `stop()` raises, the `forEach` propagates and the
field is left set. -/
def cleanupStream (r : Recorder) : Recorder × List Obs × Option JsErr :=
  match r.stream with
  | none => (r, [], none)
  | some s =>
      let (os, e) := stopTracks r s.id s.tracks 0
      match e with
      | some err => (r, os, some err)
      | none => ({ r with stream := none }, os, none)

/-- cleanupPreview (line 263): detach the preview sink if an element is
attached. -/
def cleanupPreview (r : Recorder) : Recorder :=
  if r.previewElement then { r with previewSrc := none } else r

/-- dispose (line 191): stop timer, release stream, detach preview,
clear fields, force idle. An exception from a track's `stop()`
propagates out and skips the remaining teardown. -/
def dispose (r : Recorder) : Recorder × List Obs × Option JsErr :=
  let r1 := stopTimer r
  let (r2, os, e) := cleanupStream r1
  match e with
  | some err => (r2, os, some err)
  | none =>
      let r3 := cleanupPreview r2
      let r4 := { r3 with
        mediaRecorder := none
        stream := none
        chunks := []
        elapsedSeconds := 0 }
      let (r5, os2) := setState r4 .idle
      (r5, os ++ os2, none)

/-- handleError (line 240): log, dispose, transition to error, invoke
the error callback. -/
def handleError (r : Recorder) (err : JsErr) : Recorder × List Obs × Option JsErr :=
  let (r1, os, e) := dispose r
  match e with
  | some e2 => (r1, os, some e2)
  | none =>
      let (r2, os2) := setState r1 .error
      (r2, os ++ os2 ++ [emit r2 (.onError err.name err.message)], none)

/-- handleRecordingStopped (line 227): stop timer, release tracks,
detach preview, assemble the chunk list into the result blob, clear
chunks, transition to idle, deliver the blob via `onStop`. -/
def handleRecordingStopped (r : Recorder) : Recorder × List Obs × Option JsErr :=
  let r1 := stopTimer r
  let (r2, os, e) := cleanupStream r1
  match e with
  | some err => (r2, os, some err)
  | none =>
      let r3 := cleanupPreview r2
      let blob := r3.chunks
      let r4 := { r3 with chunks := [] }
      let (r5, os2) := setState r4 .idle
      (r5, os ++ os2 ++ [emit r5 (.onStop blob)], none)

/-- stop (line 174): no-op with a warning unless recording; otherwise
transition to stopping and, when the encoder is live, request its
finalization. -/
def stop (r : Recorder) : Recorder × List Obs :=
  if r.state ≠ .recording then
    (r, [emit r (.warn "RecorderService: Not currently recording")])
  else
    let (r1, os) := setState r .stopping
    match r1.mediaRecorder with
    | some m =>
        if m.active then
          let r2 := { r1 with mediaRecorder := some { m with stopRequested := true } }
          (r2, os ++ [emit r2 .encStopReq])
        else (r1, os)
    | none => (r1, os)

/-- The result the platform delivers for a `getDisplayMedia` request:
a granted stream (together with whether the freshly constructed
MediaRecorder reports the expected `inactive` state, line 147), or a
rejection carrying a JS error. -/
inductive GDMResult where
  | granted (s : MStream) (recInactive : Bool)
  | denied (e : JsErr)
deriving DecidableEq, Repr

/-- Character-list test: does `needle` occur at the head of `hay`? -/
def leadsWith : List Char → List Char → Bool
  | _, [] => true
  | [], _ :: _ => false
  | a :: hay, b :: needle => a = b && leadsWith hay needle

/-- Character-list substring test, modelling `String.prototype.includes`. -/
def containsSeq : List Char → List Char → Bool
  | hay, needle =>
      leadsWith hay needle ||
        match hay with
        | [] => false
        | _ :: t => containsSeq t needle

/-- The denial test of start's catch block (line 162):
`err.name === 'NotAllowedError' || err.message?.includes('Permission denied')`. -/
def isDenialErr (e : JsErr) : Bool :=
  e.name = "NotAllowedError" || containsSeq e.message.toList "Permission denied".toList

/-- Does the granted stream contain a video track
(`stream.getVideoTracks()[0]` is defined, line 102)? -/
def hasVideoTrack (s : MStream) : Bool :=
  s.tracks.any (fun t => t.kind = .video)

/-- Synchronous prefix of start() (lines 84-92), up to the
`getDisplayMedia` await: the already-recording guard, `setState('idle')`,
clearing `chunks` and `elapsedSeconds`. The suspended continuation is
counted in `pendingStarts`. -/
def startInvoke (r : Recorder) : Recorder × List Obs :=
  if r.state = .recording then
    (r, [emit r (.warn "RecorderService: Already recording")])
  else
    let (r1, os) := setState r .idle
    (({ r1 with
        chunks := []
        elapsedSeconds := 0
        pendingStarts := r1.pendingStarts + 1 }), os)

/-- Continuation of start() after the `getDisplayMedia` await resolves
(lines 94-168). On grant: assign the stream (overwriting any previous
one), hook `onended` on the first video track (a stream without one
makes that property access throw a TypeError), attach the preview,
construct the MediaRecorder, defensive inactive check, start encoding,
`setState('recording')`, start the timer. On rejection or any thrown
error, the catch block returns silently to idle for a denial-type error
and routes everything else through handleError. -/
def startResume (r : Recorder) (res : GDMResult) : Recorder × List Obs × Option JsErr :=
  match res with
  | .denied e =>
      if isDenialErr e then
        let (r1, os) := setState r .idle
        (r1, os, none)
      else handleError r e
  | .granted s recInactive =>
      let r1 := { r with stream := some s }
      if hasVideoTrack s then
        let r2 := { r1 with videoOnendedHooked := true }
        let r3 := if r2.previewElement then { r2 with previewSrc := some s.id } else r2
        let r4 := { r3 with mediaRecorder := some { active := !recInactive, stopRequested := false } }
        if recInactive then
          let r5 := { r4 with mediaRecorder := some { active := true, stopRequested := false } }
          let (r6, os) := setState r5 .recording
          let (r7, os2) := startTimer r6
          (r7, os ++ os2, none)
        else
          let (r5, os, e) := handleError r4 ⟨"Error", "MediaRecorder is not in inactive state"⟩
          (r5, os, e)
      else
        let (r2, os, e) := handleError r1 ⟨"TypeError", "Cannot set properties of undefined (setting onended)"⟩
        (r2, os, e)

/-- The `ondataavailable` handler (line 128): push the chunk and fire
the data callback when the chunk is non-empty. -/
def dataAvailable (r : Recorder) (size : Nat) : Recorder × List Obs :=
  if size > 0 then
    let r1 := { r with chunks := r.chunks ++ [size] }
    (r1, [emit r1 (.onDataAvailable size)])
  else (r, [])

/-! ## Event-loop semantics -/

/-- The events the single-threaded event loop can deliver to a
`RecorderService` instance: the caller's method calls (a `start()` call
split into its synchronous prefix and its post-await continuation), a
timer interval firing, the encoder's data/stop events, and the
platform's track-ended signal. -/
inductive REvent where
  | invokeStart
  | resumeStart (res : GDMResult)
  | callStop
  | callDispose
  | tick (i : Nat)
  | data (size : Nat)
  | recStopped
  | videoEnded
deriving DecidableEq, Repr

/-- One interval firing: only live intervals tick; the handler (line
214) increments `elapsedSeconds` and fires `onTimeUpdate`. -/
def tickStep (r : Recorder) (i : Nat) : Recorder × List Obs :=
  if i ∈ r.activeIntervals then
    let r1 := { r with elapsedSeconds := r.elapsedSeconds + 1 }
    (r1, [emit r1 (.onTimeUpdate r1.elapsedSeconds)])
  else (r, [])

/-- One step of the event loop. Exceptions escaping a handler are
dropped by the loop (the recorder keeps the fields it had when the
exception was raised). -/
def step (r : Recorder) : REvent → Recorder × List Obs
  | .invokeStart => startInvoke r
  | .resumeStart res =>
      if r.pendingStarts = 0 then (r, [])
      else
        let (r1, os, _) := startResume { r with pendingStarts := r.pendingStarts - 1 } res
        (r1, os)
  | .callStop => stop r
  | .callDispose =>
      let (r1, os, _) := dispose r
      (r1, os)
  | .tick i => tickStep r i
  | .data n =>
      match r.mediaRecorder with
      | some m => if m.active then dataAvailable r n else (r, [])
      | none => (r, [])
  | .recStopped =>
      match r.mediaRecorder with
      | some m =>
          if m.stopRequested then
            let r1 := { r with mediaRecorder := some ⟨false, false⟩ }
            let (r2, os, _) := handleRecordingStopped r1
            (r2, os)
          else (r, [])
      | none => (r, [])
  | .videoEnded =>
      if r.videoOnendedHooked then
        if r.state = .recording then stop r else (r, [])
      else (r, [])

/-- Run a list of events, accumulating the observation trace. -/
def run (r : Recorder) : List REvent → Recorder × List Obs
  | [] => (r, [])
  | e :: es =>
      let (r1, os) := step r e
      let (r2, os2) := run r1 es
      (r2, os ++ os2)

/-! ## Reachability invariant -/

/-- Well-behaved stream: no track's `stop()` raises (what the web
platform in fact guarantees for MediaStreamTrack.stop). -/
def streamWB (s : MStream) : Bool :=
  s.tracks.all (fun t => !t.stopThrows)

/-- Is the session in a capture-holding state (`recording` or
`stopping`)? -/
def stateActive (st : RecState) : Bool :=
  st = .recording || st = .stopping

/-- Field-coupling invariant of a `RecorderService` instance, stated
over the embedding's state. It packages: the spec's capture/state
invariant, well-behavedness of the held stream, the timer/state
coupling, absence of leaked intervals, at most one suspended `start()`
(and only from idle), a pending encoder-stop only in `stopping`, and a
live encoder only in a capture-holding state. -/
def Inv (r : Recorder) : Bool :=
  (r.stream.isSome == stateActive r.state) &&
  (match r.stream with | some s => streamWB s | none => true) &&
  (r.timerInterval.isSome == stateActive r.state) &&
  (r.activeIntervals == r.timerInterval.toList) &&
  (r.pendingStarts ≤ 1 : Bool) &&
  (r.pendingStarts == 0 || r.state == .idle) &&
  (match r.mediaRecorder with
   | some m =>
       (!m.stopRequested || r.state == .stopping) &&
       (!m.active || stateActive r.state)
   | none => true)

/-- Admissible event in the current state: `start()` is only invoked
from a quiescent idle/error state (no overlapping start, no start
during `stopping` — the single-in-flight-transition assumption of the
spec's concurrency model), and the platform only grants streams whose
tracks release cleanly. -/
def okEvt (r : Recorder) : REvent → Bool
  | .invokeStart =>
      (r.state == .idle || r.state == .error) && r.pendingStarts == 0
  | .resumeStart res =>
      match res with
      | .granted s _ => streamWB s
      | .denied _ => true
  | _ => true

/-- A run is good when every event is admissible in the state it is
delivered in. -/
def goodRun : Recorder → List REvent → Bool
  | _, [] => true
  | r, e :: es => okEvt r e && goodRun (step r e).1 es

/-- Events whose observation is a callback delivered to the caller
(`onStateChange`, `onDataAvailable`, `onStop`, `onError`,
`onTimeUpdate`), as opposed to internal effects. -/
def isCallbackEv : Ev → Bool
  | .onStateChange _ => true
  | .onDataAvailable _ => true
  | .onStop _ => true
  | .onError _ _ => true
  | .onTimeUpdate _ => true
  | _ => false

/-- Callback-point soundness: at every observation that is a
caller-visible callback, the stream field is non-null exactly when the
snapshotted state is recording or stopping; and every elapsed-time
notification is snapshotted in a recording or stopping state. -/
def obsOK (o : Obs) : Bool :=
  (!isCallbackEv o.ev || (o.streamId.isSome == stateActive o.state)) &&
  (match o.ev with
   | .onTimeUpdate _ => stateActive o.state
   | _ => true)

/-! ## Helper lemmas about track release -/

theorem stopTracks_eq_of_wb (r : Recorder) (sid : Nat) (ts : List Track) (i : Nat)
    (h : ts.all (fun t => !t.stopThrows) = true) :
    stopTracks r sid ts i =
      ((List.range ts.length).map (fun j => emit r (.trackStop sid (i + j))), none) := by
  induction ts generalizing i with
  | nil => simp [stopTracks]
  | cons t rest ih =>
      simp only [List.all_cons, Bool.and_eq_true, Bool.not_eq_true'] at h
      simp only [stopTracks, h.1, ih _ h.2]
      simp only [List.length_cons, List.range_succ_eq_map, List.map_cons, List.map_map,
        if_false, Bool.false_eq_true]
      refine Prod.ext ?_ rfl
      simp only []
      refine List.cons_eq_cons.mpr ⟨by simp, ?_⟩
      apply List.map_congr_left
      intro a _
      have h' : i + 1 + a = i + (a + 1) := by omega
      simp [Function.comp_apply, Nat.succ_eq_add_one, h']

theorem cleanupStream_none (r : Recorder) (h : r.stream = none) :
    cleanupStream r = (r, [], none) := by
  simp [cleanupStream, h]

theorem cleanupStream_wb (r : Recorder) (s : MStream) (h : r.stream = some s)
    (hwb : streamWB s = true) :
    cleanupStream r =
      ({ r with stream := none },
       (List.range s.tracks.length).map (fun j => emit r (.trackStop s.id j)),
       none) := by
  simp only [cleanupStream, h, stopTracks_eq_of_wb r s.id s.tracks 0 hwb]
  simp

/-- Track-release observations of a cleanup pass over the held stream. -/
def releaseObs (r : Recorder) : List Obs :=
  match r.stream with
  | some s =>
      (List.range s.tracks.length).map
        (fun j => ⟨.trackStop s.id j, r.state, some s.id⟩)
  | none => []

theorem emit_stopTimer (r : Recorder) (e : Ev) : emit (stopTimer r) e = emit r e := by
  cases h : r.timerInterval <;> simp [stopTimer, emit, h]

theorem stream_stopTimer (r : Recorder) : (stopTimer r).stream = r.stream := by
  cases h : r.timerInterval <;> simp [stopTimer, h]

theorem state_stopTimer (r : Recorder) : (stopTimer r).state = r.state := by
  cases h : r.timerInterval <;> simp [stopTimer, h]

theorem timerInterval_stopTimer (r : Recorder) : (stopTimer r).timerInterval = none := by
  cases h : r.timerInterval <;> simp [stopTimer, h]

/-- Fields of a session after a clean `dispose()` (no track raised). -/
def disposedOf (r : Recorder) : Recorder :=
  { mediaRecorder := none
    stream := none
    chunks := []
    timerInterval := none
    activeIntervals := (stopTimer r).activeIntervals
    nextTimerId := r.nextTimerId
    elapsedSeconds := 0
    state := .idle
    previewElement := r.previewElement
    previewSrc := if r.previewElement then none else r.previewSrc
    pendingStarts := r.pendingStarts
    videoOnendedHooked := r.videoOnendedHooked }

theorem dispose_wb (r : Recorder)
    (h : (match r.stream with | some s => streamWB s | none => true) = true) :
    dispose r =
      (disposedOf r, releaseObs r ++ [⟨.onStateChange .idle, .idle, none⟩], none) := by
  cases hs : r.stream with
  | none =>
      have h1 : (stopTimer r).stream = none := by rw [stream_stopTimer, hs]
      simp only [dispose, cleanupStream_none _ h1, releaseObs, hs]
      cases hpe : r.previewElement <;>
        cases hti : r.timerInterval <;>
          simp [disposedOf, cleanupPreview, setState, emit, stopTimer, hti, hpe]
  | some s =>
      rw [hs] at h
      have h1 : (stopTimer r).stream = some s := by rw [stream_stopTimer, hs]
      simp only [dispose, cleanupStream_wb _ s h1 h, releaseObs, hs]
      have hobs : ∀ j, emit (stopTimer r) (Ev.trackStop s.id j) =
          (⟨.trackStop s.id j, r.state, some s.id⟩ : Obs) := by
        intro j
        rw [emit_stopTimer]
        simp [emit, hs]
      simp only [hobs]
      cases hpe : r.previewElement <;>
        cases hti : r.timerInterval <;>
          simp [disposedOf, cleanupPreview, setState, emit, stopTimer, hti, hpe]

theorem handleError_wb (r : Recorder) (err : JsErr)
    (h : (match r.stream with | some s => streamWB s | none => true) = true) :
    handleError r err =
      ({ disposedOf r with state := .error },
       releaseObs r ++
         [⟨.onStateChange .idle, .idle, none⟩,
          ⟨.onStateChange .error, .error, none⟩,
          ⟨.onError err.name err.message, .error, none⟩],
       none) := by
  simp only [handleError, dispose_wb r h, setState, emit, disposedOf]
  simp

theorem handleRecordingStopped_wb (r : Recorder)
    (h : (match r.stream with | some s => streamWB s | none => true) = true) :
    handleRecordingStopped r =
      ({ r with
          stream := none
          chunks := []
          timerInterval := none
          activeIntervals := (stopTimer r).activeIntervals
          previewSrc := if r.previewElement then none else r.previewSrc
          state := .idle },
       releaseObs r ++
         [⟨.onStateChange .idle, .idle, none⟩,
          ⟨.onStop r.chunks, .idle, none⟩],
       none) := by
  cases hs : r.stream with
  | none =>
      have h1 : (stopTimer r).stream = none := by rw [stream_stopTimer, hs]
      simp only [handleRecordingStopped, cleanupStream_none _ h1, releaseObs, hs]
      cases hpe : r.previewElement <;>
        cases hti : r.timerInterval <;>
          simp [cleanupPreview, setState, emit, stopTimer, hti, hpe, hs]
  | some s =>
      rw [hs] at h
      have h1 : (stopTimer r).stream = some s := by rw [stream_stopTimer, hs]
      simp only [handleRecordingStopped, cleanupStream_wb _ s h1 h, releaseObs, hs]
      have hobs : ∀ j, emit (stopTimer r) (Ev.trackStop s.id j) =
          (⟨.trackStop s.id j, r.state, some s.id⟩ : Obs) := by
        intro j
        rw [emit_stopTimer]
        simp [emit, hs]
      simp only [hobs]
      cases hpe : r.previewElement <;>
        cases hti : r.timerInterval <;>
          simp [cleanupPreview, setState, emit, stopTimer, hti, hpe]

/-! ## Invariant preservation, event by event -/

theorem startInvoke_inv (r : Recorder) (h : Inv r = true)
    (hst : r.state = .idle ∨ r.state = .error) (hp : r.pendingStarts = 0) :
    Inv (startInvoke r).1 = true ∧ ∀ o ∈ (startInvoke r).2, obsOK o = true := by
  have hne : ¬ r.state = .recording := by
    rcases hst with h' | h' <;> simp [h']
  have hsa : stateActive r.state = false := by
    rcases hst with h' | h' <;> simp [stateActive, h']
  simp only [Inv, Bool.and_eq_true] at h
  obtain ⟨⟨⟨⟨⟨⟨h1, h2⟩, h3⟩, h4⟩, h5⟩, h6⟩, h7⟩ := h
  rw [hsa] at h1 h3
  cases hsr : r.stream with
  | some s => rw [hsr] at h1; simp at h1
  | none =>
  cases hti : r.timerInterval with
  | some i => rw [hti] at h3; simp at h3
  | none =>
  rw [hti] at h4
  simp only [startInvoke, if_neg hne]
  refine ⟨?_, ?_⟩
  · simp only [Inv, setState, emit, Bool.and_eq_true]
    split at h7
    next m hmr => simp_all [stateActive]
    next hmr => simp_all [stateActive]
  · intro o ho
    simp only [setState, emit, List.mem_singleton] at ho
    subst ho
    simp [obsOK, isCallbackEv, hsr, stateActive]

theorem stopTimer_of_none (r : Recorder) (h : r.timerInterval = none) :
    stopTimer r = r := by
  simp [stopTimer, h]

theorem obsOK_releaseObs (r : Recorder) : ∀ o ∈ releaseObs r, obsOK o = true := by
  intro o ho
  cases hs : r.stream with
  | none => simp [releaseObs, hs] at ho
  | some s =>
      simp only [releaseObs, hs, List.mem_map, List.mem_range] at ho
      obtain ⟨j, _, h'⟩ := ho
      subst h'
      simp [obsOK, isCallbackEv]

theorem handleError_post (r : Recorder) (err : JsErr)
    (hs : (match r.stream with | some s => streamWB s | none => true) = true)
    (hti2 : r.timerInterval = none) (hai : r.activeIntervals = [])
    (hp0 : r.pendingStarts = 0) :
    Inv (handleError r err).1 = true ∧ ∀ o ∈ (handleError r err).2.1, obsOK o = true := by
  rw [handleError_wb r err hs]
  constructor
  · simp [Inv, disposedOf, stopTimer, stateActive, hti2, hai, hp0]
  · intro o ho
    simp only [List.mem_append, List.mem_cons, List.not_mem_nil, or_false] at ho
    rcases ho with h' | h' | h' | h'
    · exact obsOK_releaseObs r o h'
    · subst h'; simp [obsOK, isCallbackEv, stateActive]
    · subst h'; simp [obsOK, isCallbackEv, stateActive]
    · subst h'; simp [obsOK, isCallbackEv, stateActive]

theorem startResume_inv (r : Recorder) (res : GDMResult) (h : Inv r = true)
    (hok : okEvt r (.resumeStart res) = true) :
    Inv (step r (.resumeStart res)).1 = true ∧
      ∀ o ∈ (step r (.resumeStart res)).2, obsOK o = true := by
  by_cases hp : r.pendingStarts = 0
  · simp [step, hp, h]
  · simp only [Inv, Bool.and_eq_true] at h
    obtain ⟨⟨⟨⟨⟨⟨h1, h2⟩, h3⟩, h4⟩, h5⟩, h6⟩, h7⟩ := h
    have h5' : r.pendingStarts = 1 := by
      have := of_decide_eq_true h5
      omega
    have hst : r.state = .idle := by
      simp only [Bool.or_eq_true, beq_iff_eq] at h6
      rcases h6 with h' | h'
      · exact absurd h' hp
      · exact h'
    have hsa : stateActive r.state = false := by simp [stateActive, hst]
    rw [hsa] at h1 h3
    cases hsr : r.stream with
    | some s => rw [hsr] at h1; simp at h1
    | none =>
    cases hti : r.timerInterval with
    | some i => rw [hti] at h3; simp at h3
    | none =>
    rw [hti] at h4
    simp only [Option.toList_none, beq_iff_eq] at h4
    have hmr : ∀ m, r.mediaRecorder = some m → m.stopRequested = false ∧ m.active = false := by
      intro m hm
      rw [hm] at h7
      simp only [Bool.and_eq_true, Bool.or_eq_true, Bool.not_eq_true', beq_iff_eq] at h7
      refine ⟨?_, ?_⟩
      · rcases h7.1 with h' | h'
        · exact h'
        · rw [hst] at h'; cases h'
      · rcases h7.2 with h' | h'
        · exact h'
        · rw [hsa] at h'; cases h'
    have hps0 : r.pendingStarts - 1 = 0 := by omega
    simp only [step]
    rw [if_neg hp]
    cases res with
    | denied e =>
        by_cases hd : isDenialErr e = true
        · simp only [startResume, hd, if_true, setState, emit]
          refine ⟨?_, ?_⟩
          · simp only [Inv, Bool.and_eq_true]
            cases hm : r.mediaRecorder with
            | none => simp_all [stateActive]
            | some m =>
                have hm' := hmr m hm
                simp_all [stateActive]
          · intro o ho
            simp only [List.mem_singleton] at ho
            subst ho
            simp [obsOK, isCallbackEv, stateActive, hsr]
        · simp only [startResume, hd, Bool.false_eq_true, if_false]
          exact handleError_post _ _ (by simp [hsr]) (by simp [hti])
            (by simp [h4]) (by simp [hps0])
    | granted s recI =>
        have hwb : streamWB s = true := by
          simpa [okEvt] using hok
        cases hpe : r.previewElement with
        | true =>
            by_cases hv : hasVideoTrack s = true
            · cases recI with
              | true =>
                  simp only [startResume, hv, hpe, if_true, eq_self_iff_true,
                    setState, startTimer, emit]
                  refine ⟨?_, ?_⟩
                  · simp [Inv, stateActive, h4, hwb, hps0]
                  · intro o ho
                    simp only [List.mem_append, List.mem_singleton] at ho
                    rcases ho with h' | h' <;> subst h' <;>
                      simp [obsOK, isCallbackEv, stateActive]
              | false =>
                  simp only [startResume, hv, hpe, if_true, eq_self_iff_true,
                    Bool.false_eq_true, if_false]
                  exact handleError_post _ _ (by simpa using hwb) (by simp [hti])
                    (by simp [h4]) (by simp [hps0])
            · simp only [startResume, hv, Bool.false_eq_true, if_false]
              exact handleError_post _ _ (by simpa using hwb) (by simp [hti])
                (by simp [h4]) (by simp [hps0])
        | false =>
            by_cases hv : hasVideoTrack s = true
            · cases recI with
              | true =>
                  simp only [startResume, hv, hpe, if_true, eq_self_iff_true,
                    Bool.false_eq_true, if_false, setState, startTimer, emit]
                  refine ⟨?_, ?_⟩
                  · simp [Inv, stateActive, h4, hwb, hps0]
                  · intro o ho
                    simp only [List.mem_append, List.mem_singleton] at ho
                    rcases ho with h' | h' <;> subst h' <;>
                      simp [obsOK, isCallbackEv, stateActive]
              | false =>
                  simp only [startResume, hv, hpe, if_true, eq_self_iff_true,
                    Bool.false_eq_true, if_false]
                  exact handleError_post _ _ (by simpa using hwb) (by simp [hti])
                    (by simp [h4]) (by simp [hps0])
            · simp only [startResume, hv, Bool.false_eq_true, if_false]
              exact handleError_post _ _ (by simpa using hwb) (by simp [hti])
                (by simp [h4]) (by simp [hps0])

theorem stopTimer_ai (r : Recorder)
    (h : r.activeIntervals = r.timerInterval.toList) :
    (stopTimer r).activeIntervals = [] := by
  cases ht : r.timerInterval with
  | none => rw [ht] at h; simp [stopTimer, ht, h]
  | some i =>
      rw [ht] at h
      simp only [Option.toList_some] at h
      simp [stopTimer, ht, h]

theorem stop_inv (r : Recorder) (h : Inv r = true) :
    Inv (stop r).1 = true ∧ ∀ o ∈ (stop r).2, obsOK o = true := by
  by_cases hrec : r.state = .recording
  · have hcopy := h
    simp only [Inv, Bool.and_eq_true] at h
    obtain ⟨⟨⟨⟨⟨⟨h1, h2⟩, h3⟩, h4⟩, h5⟩, h6⟩, h7⟩ := h
    have hsa : stateActive r.state = true := by simp [stateActive, hrec]
    rw [hsa] at h1 h3
    cases hsr : r.stream with
    | none => rw [hsr] at h1; simp at h1
    | some s =>
    rw [hsr] at h2
    have hp0 : r.pendingStarts = 0 := by
      simp only [Bool.or_eq_true, beq_iff_eq] at h6
      rcases h6 with h' | h'
      · exact h'
      · rw [hrec] at h'; cases h'
    simp only [stop, hrec, ne_eq, not_true_eq_false, Bool.false_eq_true, if_false,
      setState, emit]
    cases hm : r.mediaRecorder with
    | none =>
        refine ⟨?_, ?_⟩
        · simp_all [Inv, stateActive]
        · intro o ho
          simp only [List.mem_singleton] at ho
          subst ho
          simp [obsOK, isCallbackEv, stateActive, hsr]
    | some m =>
        cases ha : m.active with
        | false =>
            simp only [ha, Bool.false_eq_true, if_false]
            refine ⟨?_, ?_⟩
            · rw [hm] at h7
              simp_all [Inv, stateActive]
            · intro o ho
              simp only [List.mem_singleton] at ho
              subst ho
              simp [obsOK, isCallbackEv, stateActive, hsr]
        | true =>
            simp only [ha, if_true]
            refine ⟨?_, ?_⟩
            · simp_all [Inv, stateActive]
            · intro o ho
              simp only [List.mem_append, List.mem_singleton] at ho
              rcases ho with h' | h' <;> subst h' <;>
                simp [obsOK, isCallbackEv, stateActive, hsr]
  · simp only [stop, hrec, ne_eq, not_false_eq_true, if_true, emit]
    refine ⟨h, ?_⟩
    intro o ho
    simp only [List.mem_singleton] at ho
    subst ho
    simp [obsOK, isCallbackEv]

theorem dispose_inv (r : Recorder) (h : Inv r = true) :
    Inv (dispose r).1 = true ∧ ∀ o ∈ (dispose r).2.1, obsOK o = true := by
  simp only [Inv, Bool.and_eq_true] at h
  obtain ⟨⟨⟨⟨⟨⟨h1, h2⟩, h3⟩, h4⟩, h5⟩, h6⟩, h7⟩ := h
  rw [dispose_wb r h2]
  refine ⟨?_, ?_⟩
  · have hai : (stopTimer r).activeIntervals = [] :=
      stopTimer_ai r (by simpa using h4)
    simp only [Inv, disposedOf, Bool.and_eq_true]
    simp [stateActive, hai]
    exact of_decide_eq_true h5
  · intro o ho
    simp only [List.mem_append, List.mem_singleton] at ho
    rcases ho with h' | h'
    · exact obsOK_releaseObs r o h'
    · subst h'
      simp [obsOK, isCallbackEv, stateActive]

theorem tick_inv (r : Recorder) (i : Nat) (h : Inv r = true) :
    Inv (tickStep r i).1 = true ∧ ∀ o ∈ (tickStep r i).2, obsOK o = true := by
  by_cases him : i ∈ r.activeIntervals
  · have hcopy := h
    simp only [Inv, Bool.and_eq_true] at h
    obtain ⟨⟨⟨⟨⟨⟨h1, h2⟩, h3⟩, h4⟩, h5⟩, h6⟩, h7⟩ := h
    have hsa : stateActive r.state = true := by
      cases ht : r.timerInterval with
      | some j => rw [ht] at h3; simpa using h3.symm
      | none =>
          rw [ht] at h4
          simp only [Option.toList_none, beq_iff_eq] at h4
          rw [h4] at him
          simp at him
    simp only [tickStep, him, if_pos, emit]
    refine ⟨?_, ?_⟩
    · simp only [Inv, Bool.and_eq_true] at hcopy ⊢
      exact hcopy
    · intro o ho
      simp only [if_pos him, List.mem_singleton] at ho
      subst ho
      simp only [obsOK, isCallbackEv, Bool.false_or, hsa]
      rw [hsa] at h1
      simpa using h1
  · simp [tickStep, him, h]

theorem data_inv (r : Recorder) (n : Nat) (h : Inv r = true) :
    Inv (step r (.data n)).1 = true ∧ ∀ o ∈ (step r (.data n)).2, obsOK o = true := by
  simp only [step]
  cases hm : r.mediaRecorder with
  | none => simp [h]
  | some m =>
      cases ha : m.active with
      | false => simp [ha, h]
      | true =>
          simp only [ha, if_true, dataAvailable]
          have hcopy := h
          simp only [Inv, Bool.and_eq_true] at h
          obtain ⟨⟨⟨⟨⟨⟨h1, h2⟩, h3⟩, h4⟩, h5⟩, h6⟩, h7⟩ := h
          have hsa : stateActive r.state = true := by
            rw [hm] at h7
            simp only [Bool.and_eq_true, Bool.or_eq_true, Bool.not_eq_true'] at h7
            rcases h7.2 with h' | h'
            · rw [ha] at h'; cases h'
            · exact h'
          by_cases hn : n > 0
          · simp only [if_pos hn, emit]
            refine ⟨?_, ?_⟩
            · simp only [Inv, Bool.and_eq_true] at hcopy ⊢
              exact hcopy
            · intro o ho
              simp only [List.mem_singleton] at ho
              subst ho
              simp only [obsOK, isCallbackEv, Bool.false_or, hsa]
              rw [hsa] at h1
              simpa using h1
          · simp [hn, hcopy]

theorem recStopped_inv (r : Recorder) (h : Inv r = true) :
    Inv (step r .recStopped).1 = true ∧ ∀ o ∈ (step r .recStopped).2, obsOK o = true := by
  simp only [step]
  cases hm : r.mediaRecorder with
  | none => simp [h]
  | some m =>
      cases hsrq : m.stopRequested with
      | false => simp [hsrq, h]
      | true =>
          simp only [hsrq, if_true]
          simp only [Inv, Bool.and_eq_true] at h
          obtain ⟨⟨⟨⟨⟨⟨h1, h2⟩, h3⟩, h4⟩, h5⟩, h6⟩, h7⟩ := h
          have hstp : r.state = .stopping := by
            rw [hm] at h7
            simp only [Bool.and_eq_true, Bool.or_eq_true, Bool.not_eq_true',
              beq_iff_eq] at h7
            rcases h7.1 with h' | h'
            · rw [hsrq] at h'; cases h'
            · exact h'
          have hsa : stateActive r.state = true := by simp [stateActive, hstp]
          have hp0 : r.pendingStarts = 0 := by
            simp only [Bool.or_eq_true, beq_iff_eq] at h6
            rcases h6 with h' | h'
            · exact h'
            · rw [hstp] at h'; cases h'
          rw [handleRecordingStopped_wb _ (by simpa using h2)]
          refine ⟨?_, ?_⟩
          · simp only [beq_iff_eq] at h4
            cases hti2 : r.timerInterval with
            | none =>
                rw [hti2] at h4
                simp only [Option.toList_none] at h4
                simp [Inv, stateActive, stopTimer, hti2, h4, hp0]
            | some i =>
                rw [hti2] at h4
                simp only [Option.toList_some] at h4
                simp [Inv, stateActive, stopTimer, hti2, h4, hp0]
          · intro o ho
            simp only [List.mem_append, List.mem_cons, List.not_mem_nil, or_false] at ho
            rcases ho with h' | h' | h'
            · exact obsOK_releaseObs _ o h'
            · subst h'; simp [obsOK, isCallbackEv, stateActive]
            · subst h'; simp [obsOK, isCallbackEv, stateActive]

theorem step_inv (r : Recorder) (e : REvent) (h : Inv r = true)
    (hok : okEvt r e = true) :
    Inv (step r e).1 = true ∧ ∀ o ∈ (step r e).2, obsOK o = true := by
  cases e with
  | invokeStart =>
      simp only [okEvt, Bool.and_eq_true, Bool.or_eq_true, beq_iff_eq] at hok
      exact startInvoke_inv r h hok.1 hok.2
  | resumeStart res => exact startResume_inv r res h hok
  | callStop => exact stop_inv r h
  | callDispose =>
      have := dispose_inv r h
      simpa [step] using this
  | tick i => exact tick_inv r i h
  | data n => exact data_inv r n h
  | recStopped => exact recStopped_inv r h
  | videoEnded =>
      simp only [step]
      by_cases hh : r.videoOnendedHooked = true
      · simp only [hh, if_pos rfl]
        by_cases hr : r.state = .recording
        · simp only [hr, if_pos rfl]
          exact stop_inv r h
        · simp [hr, h]
      · simp only [hh]
        simp at hh
        simp [hh, h]

/-- Good runs keep the invariant and every callback observation sound. -/
theorem run_inv (es : List REvent) : ∀ r : Recorder, Inv r = true →
    goodRun r es = true →
    Inv (run r es).1 = true ∧ ∀ o ∈ (run r es).2, obsOK o = true := by
  induction es with
  | nil => intro r h _; exact ⟨h, by simp [run]⟩
  | cons e es ih =>
      intro r h hg
      simp only [goodRun, Bool.and_eq_true] at hg
      obtain ⟨hok, hg⟩ := hg
      have hstep := step_inv r e h hok
      have hrest := ih (step r e).1 hstep.1 hg
      refine ⟨?_, ?_⟩
      · simpa [run] using hrest.1
      · intro o ho
        simp only [run, List.mem_append] at ho
        rcases ho with h' | h'
        · exact hstep.2 o h'
        · exact hrest.2 o h'

theorem Inv_init : Inv Recorder.init = true := by
  simp [Inv, Recorder.init, stateActive]

/-! ## Claim theorems -/

/-- A granted stream with one well-behaved video track and one
well-behaved audio track, used in concrete executions. -/
def sVA : MStream := ⟨0, [⟨.video, false⟩, ⟨.audio, false⟩]⟩

/-- Execution exhibiting a stale capture stream: a successful start, a
stop, then a second start during `stopping` whose permission prompt the
user denies. -/
def c1events : List REvent :=
  [.invokeStart, .resumeStart (.granted sVA true), .callStop,
   .invokeStart, .resumeStart (.denied ⟨"NotAllowedError", "x"⟩)]

/-- C1: the claimed invariant fails on the code. Calling `start()`
while the state is `stopping` and having the permission prompt denied
leaves the session in state `idle` while the previous capture stream is
still held (never released); the `onStateChange('idle')` callback even
observes state `idle` with the stream attached. -/
theorem C1_counterexample :
    (run Recorder.init c1events).1.state = .idle ∧
    (run Recorder.init c1events).1.stream.isSome = true ∧
    (⟨.onStateChange .idle, .idle, some 0⟩ : Obs) ∈ (run Recorder.init c1events).2 := by
  decide

/-- C1 (amended): in every execution from a fresh session in which
`start()` is only invoked from a quiescent `idle`/`error` state with no
start pending, and granted streams release cleanly, the capture stream
field is non-null exactly when the state is `recording` or `stopping`,
both in the final state and at every caller-visible callback. -/
theorem C1_amended (es : List REvent) (hg : goodRun Recorder.init es = true) :
    ((run Recorder.init es).1.stream.isSome =
      stateActive (run Recorder.init es).1.state) ∧
    ∀ o ∈ (run Recorder.init es).2, isCallbackEv o.ev = true →
      o.streamId.isSome = stateActive o.state := by
  have h := run_inv es Recorder.init Inv_init hg
  constructor
  · have h1 := h.1
    simp only [Inv, Bool.and_eq_true] at h1
    have := h1.1.1.1.1.1.1
    simpa using this
  · intro o ho hcb
    have h2 := h.2 o ho
    simp only [obsOK, Bool.and_eq_true, Bool.or_eq_true, Bool.not_eq_true'] at h2
    rcases h2.1 with h' | h'
    · rw [hcb] at h'; cases h'
    · simpa using h'

/-- C1 (amended) holds on a concrete good execution. -/
theorem C1_amended_witness :
    goodRun Recorder.init
      [.invokeStart, .resumeStart (.granted sVA true), .callStop, .recStopped] = true ∧
    (((run Recorder.init
        [.invokeStart, .resumeStart (.granted sVA true), .callStop, .recStopped]).1.stream.isSome =
      stateActive (run Recorder.init
        [.invokeStart, .resumeStart (.granted sVA true), .callStop, .recStopped]).1.state) ∧
    ∀ o ∈ (run Recorder.init
        [.invokeStart, .resumeStart (.granted sVA true), .callStop, .recStopped]).2,
      isCallbackEv o.ev = true → o.streamId.isSome = stateActive o.state) :=
  ⟨by decide, C1_amended _ (by decide)⟩

/-- Execution with a timer tick delivered between `stop()` and the
encoder's stop-completion. -/
def c4events : List REvent :=
  [.invokeStart, .resumeStart (.granted sVA true), .callStop, .tick 0]

/-- C4: the claimed property fails on the code. `stop()` does not stop
the timer (only the encoder's completion handler does), so a tick that
fires while the state is `stopping` still increments `elapsedSeconds`
to 1 and fires `onTimeUpdate` — the session state at that tick is
`stopping`, not `recording`. -/
theorem C4_counterexample :
    (⟨.onTimeUpdate 1, .stopping, some 0⟩ : Obs) ∈ (run Recorder.init c4events).2 ∧
    (run Recorder.init c4events).1.elapsedSeconds = 1 ∧
    (run Recorder.init c4events).1.state = .stopping := by
  decide

/-- C4 (amended): in every good execution from a fresh session (starts
only invoked quiescently, granted streams release cleanly), every
`onTimeUpdate` notification — in particular every tick that increments
`elapsedSeconds` — is delivered while the state is `recording` or
`stopping`; ticks can advance elapsed during `stopping`, but never in
`idle` or `error`. -/
theorem C4_amended (es : List REvent) (hg : goodRun Recorder.init es = true) :
    ∀ o ∈ (run Recorder.init es).2, ∀ n, o.ev = .onTimeUpdate n →
      (o.state = .recording ∨ o.state = .stopping) := by
  intro o ho n hev
  have h2 := (run_inv es Recorder.init Inv_init hg).2 o ho
  simp only [obsOK, Bool.and_eq_true] at h2
  have h3 := h2.2
  rw [hev] at h3
  simpa [stateActive] using h3

/-- C4 (amended) holds on a concrete good execution with a tick. -/
theorem C4_amended_witness :
    goodRun Recorder.init
      [.invokeStart, .resumeStart (.granted sVA true), .tick 0] = true ∧
    ∀ o ∈ (run Recorder.init
        [.invokeStart, .resumeStart (.granted sVA true), .tick 0]).2,
      ∀ n, o.ev = .onTimeUpdate n →
        (o.state = .recording ∨ o.state = .stopping) :=
  ⟨by decide, C4_amended _ (by decide)⟩

/-- C7: calling `start()` while already recording is a pure no-op apart
from the logged warning — the returned session is the very same record
(state, stream, chunks, elapsed, timer, pending starts all untouched),
and no continuation that could acquire a second capture handle is
registered. -/
theorem C7_start_while_recording (r : Recorder) (h : r.state = .recording) :
    step r .invokeStart =
      (r, [⟨.warn "RecorderService: Already recording", .recording,
            r.stream.map MStream.id⟩]) := by
  simp [step, startInvoke, emit, h]

/-- A session mid-recording, used as a concrete instance. -/
def rRec : Recorder :=
  { Recorder.init with
      state := .recording
      stream := some sVA
      mediaRecorder := some ⟨true, false⟩
      chunks := [3, 5]
      elapsedSeconds := 7
      timerInterval := some 2
      activeIntervals := [2] }

/-- C7 holds on a concrete recording session. -/
theorem C7_start_while_recording_witness :
    rRec.state = .recording ∧
    step rRec .invokeStart =
      (rRec, [⟨.warn "RecorderService: Already recording", .recording, some 0⟩]) :=
  ⟨rfl, C7_start_while_recording rRec rfl⟩

/-- C8: `dispose()` is total and idempotent. From any state, provided
the held tracks release cleanly (the platform guarantee) and the live
interval is the one the field tracks, dispose ends with state `idle`,
no stream, no timer, empty chunk buffer, elapsed 0, no encoder — and a
second dispose leaves the session exactly as the first did. -/
theorem C8_dispose_idempotent (r : Recorder)
    (hwb : (match r.stream with | some s => streamWB s | none => true) = true)
    (hleak : r.activeIntervals = r.timerInterval.toList) :
    (dispose r).1.state = .idle ∧
    (dispose r).1.stream = none ∧
    (dispose r).1.timerInterval = none ∧
    (dispose r).1.activeIntervals = [] ∧
    (dispose r).1.chunks = [] ∧
    (dispose r).1.elapsedSeconds = 0 ∧
    (dispose r).1.mediaRecorder = none ∧
    (dispose r).2.2 = none ∧
    (dispose (dispose r).1).1 = (dispose r).1 := by
  rw [dispose_wb r hwb]
  have hai : (stopTimer r).activeIntervals = [] := stopTimer_ai r hleak
  refine ⟨rfl, rfl, rfl, hai, rfl, rfl, rfl, rfl, ?_⟩
  rw [dispose_wb (disposedOf r) (by simp [disposedOf])]
  simp only [disposedOf]
  cases hpe : r.previewElement <;>
    simp [stopTimer, disposedOf, hpe, hai]

/-- C8 holds on a concrete mid-recording session. -/
theorem C8_dispose_idempotent_witness :
    (match rRec.stream with | some s => streamWB s | none => true) = true ∧
    rRec.activeIntervals = rRec.timerInterval.toList ∧
    ((dispose rRec).1.state = .idle ∧
     (dispose rRec).1.stream = none ∧
     (dispose rRec).1.chunks = [] ∧
     (dispose (dispose rRec).1).1 = (dispose rRec).1) := by
  refine ⟨by decide, by decide, ?_⟩
  have h := C8_dispose_idempotent rRec (by decide) (by decide)
  exact ⟨h.1, h.2.1, h.2.2.2.2.1, h.2.2.2.2.2.2.2.2⟩

/-- Is this event the error callback? -/
def isErrorEv : Ev → Bool
  | .onError _ _ => true
  | _ => false

/-- Is this event the finished-artifact callback? -/
def isStopEv : Ev → Bool
  | .onStop _ => true
  | _ => false

/-- Is this event a logged warning? -/
def isWarnEv : Ev → Bool
  | .warn _ => true
  | _ => false

theorem releaseObs_countP (r : Recorder) (p : Obs → Bool)
    (hp : ∀ sid idx st sm, p ⟨.trackStop sid idx, st, sm⟩ = false) :
    (releaseObs r).countP p = 0 := by
  cases hs : r.stream with
  | none => simp [releaseObs, hs]
  | some s =>
      simp only [releaseObs, hs]
      rw [List.countP_eq_zero]
      intro o ho
      simp only [List.mem_map, List.mem_range] at ho
      obtain ⟨j, _, h'⟩ := ho
      subst h'
      simp [hp]

theorem releaseObs_mr (r : Recorder) (mr : Option MRec) :
    releaseObs { r with mediaRecorder := mr } = releaseObs r := by
  cases hs : r.stream <;> simp [releaseObs, hs]

theorem run_pair (r : Recorder) (e1 e2 : REvent) :
    run r [e1, e2] =
      ((step (step r e1).1 e2).1, (step r e1).2 ++ (step (step r e1).1 e2).2) := by
  simp [run]

theorem handleError_fields (r : Recorder) (err : JsErr)
    (hs : (match r.stream with | some s => streamWB s | none => true) = true) :
    (handleError r err).1.state = .error ∧
    (handleError r err).2.1.countP (fun o => isErrorEv o.ev) = 1 := by
  rw [handleError_wb r err hs]
  refine ⟨rfl, ?_⟩
  simp only [List.countP_append]
  rw [releaseObs_countP _ _ (by intro sid idx st sm; simp [isErrorEv])]
  simp [isErrorEv]

/-- C9: calling `stop()` twice from `recording` requests exactly one
encoder finalization: the first call transitions to `stopping` and
emits the single finalize request, the second call is a no-op with a
logged warning, the one pending completion delivers exactly one
finished-artifact callback, and a further completion event is a no-op
(nothing is pending any more). -/
theorem C9_double_stop (r : Recorder) (m : MRec)
    (hst : r.state = .recording) (hm : r.mediaRecorder = some m)
    (ha : m.active = true)
    (hwb : (match r.stream with | some s => streamWB s | none => true) = true) :
    (stop r).1.state = .stopping ∧
    (stop r).2 =
      [⟨.onStateChange .stopping, .stopping, r.stream.map MStream.id⟩,
       ⟨.encStopReq, .stopping, r.stream.map MStream.id⟩] ∧
    stop (stop r).1 =
      ((stop r).1,
       [⟨.warn "RecorderService: Not currently recording", .stopping,
         r.stream.map MStream.id⟩]) ∧
    ((stop r).2 ++ (stop (stop r).1).2).countP (fun o => o.ev == .encStopReq) = 1 ∧
    (step (stop (stop r).1).1 .recStopped).2.countP (fun o => isStopEv o.ev) = 1 ∧
    step (step (stop (stop r).1).1 .recStopped).1 .recStopped =
      ((step (stop (stop r).1).1 .recStopped).1, []) := by
  have h1 : stop r =
      ({ r with
          state := .stopping
          mediaRecorder := some { active := m.active, stopRequested := true } },
       [⟨.onStateChange .stopping, .stopping, r.stream.map MStream.id⟩,
        ⟨.encStopReq, .stopping, r.stream.map MStream.id⟩]) := by
    simp [stop, hst, hm, ha, setState, emit]
  rw [h1]
  refine ⟨rfl, rfl, ?_⟩
  have h2 : stop ({ r with
      state := .stopping
      mediaRecorder := some { active := m.active, stopRequested := true } } : Recorder) =
      (({ r with
          state := .stopping
          mediaRecorder := some { active := m.active, stopRequested := true } } : Recorder),
       [⟨.warn "RecorderService: Not currently recording", .stopping,
         r.stream.map MStream.id⟩]) := by
    simp [stop, emit]
  rw [h2]
  refine ⟨rfl, by simp [isStopEv], ?_⟩
  have h3 : step ({ r with
      state := .stopping
      mediaRecorder := some { active := m.active, stopRequested := true } } : Recorder)
        .recStopped =
      ((handleRecordingStopped ({ r with
          state := .stopping
          mediaRecorder := some ⟨false, false⟩ } : Recorder)).1,
       (handleRecordingStopped ({ r with
          state := .stopping
          mediaRecorder := some ⟨false, false⟩ } : Recorder)).2.1) := by
    simp [step]
  rw [h3]
  rw [handleRecordingStopped_wb _ (by simpa using hwb)]
  refine ⟨?_, ?_⟩
  · simp only [List.countP_append]
    rw [releaseObs_countP _ _ (by intro sid idx st sm; simp [isStopEv])]
    simp [isStopEv]
  · simp [step]

/-- C9 holds on a concrete recording session. -/
theorem C9_double_stop_witness :
    rRec.state = .recording ∧
    rRec.mediaRecorder = some ⟨true, false⟩ ∧
    (stop rRec).1.state = .stopping ∧
    (step (stop (stop rRec).1).1 .recStopped).2.countP (fun o => isStopEv o.ev) = 1 := by
  have h := C9_double_stop rRec ⟨true, false⟩ rfl rfl rfl (by decide)
  exact ⟨rfl, rfl, h.1, h.2.2.2.2.1⟩

/-- C5: a permission-denial failure of the capture request returns the
session to `idle` with the error callback never invoked, while every
other failure of `start()` — a non-denial rejection of the capture
request, a granted stream without a video track, or an encoder that is
not in its expected inactive state — ends in state `error` with the
error callback fired exactly once. -/
theorem C5_denial_vs_error (r : Recorder) (e : JsErr)
    (hp : r.pendingStarts = 0) (hrec : r.state ≠ .recording)
    (hwb : (match r.stream with | some s => streamWB s | none => true) = true) :
    (isDenialErr e = true →
      (run r [.invokeStart, .resumeStart (.denied e)]).1.state = .idle ∧
      (run r [.invokeStart, .resumeStart (.denied e)]).2.countP
        (fun o => isErrorEv o.ev) = 0) ∧
    (isDenialErr e = false →
      (run r [.invokeStart, .resumeStart (.denied e)]).1.state = .error ∧
      (run r [.invokeStart, .resumeStart (.denied e)]).2.countP
        (fun o => isErrorEv o.ev) = 1) ∧
    (∀ s, streamWB s = true → hasVideoTrack s = false →
      (run r [.invokeStart, .resumeStart (.granted s true)]).1.state = .error ∧
      (run r [.invokeStart, .resumeStart (.granted s true)]).2.countP
        (fun o => isErrorEv o.ev) = 1) ∧
    (∀ s, streamWB s = true → hasVideoTrack s = true →
      (run r [.invokeStart, .resumeStart (.granted s false)]).1.state = .error ∧
      (run r [.invokeStart, .resumeStart (.granted s false)]).2.countP
        (fun o => isErrorEv o.ev) = 1) := by
  have hinv : step r .invokeStart =
      ({ r with
          state := .idle
          chunks := []
          elapsedSeconds := 0
          pendingStarts := r.pendingStarts + 1 },
       [⟨.onStateChange .idle, .idle, r.stream.map MStream.id⟩]) := by
    simp [step, startInvoke, hrec, setState, emit]
  refine ⟨?_, ?_, ?_, ?_⟩
  · intro hd
    rw [run_pair, hinv]
    have hres : step ({ r with
        state := .idle
        chunks := []
        elapsedSeconds := 0
        pendingStarts := r.pendingStarts + 1 } : Recorder)
          (.resumeStart (.denied e)) =
        ({ r with
            state := .idle
            chunks := []
            elapsedSeconds := 0
            pendingStarts := 0 },
         [⟨.onStateChange .idle, .idle, r.stream.map MStream.id⟩]) := by
      simp [step, hp, startResume, hd, setState, emit]
    rw [hres]
    simp [List.countP_append, isErrorEv]
  · intro hd
    rw [run_pair, hinv]
    have hres : step ({ r with
        state := .idle
        chunks := []
        elapsedSeconds := 0
        pendingStarts := r.pendingStarts + 1 } : Recorder)
          (.resumeStart (.denied e)) =
        ((handleError ({ r with
            state := .idle
            chunks := []
            elapsedSeconds := 0
            pendingStarts := 0 } : Recorder) e).1,
         (handleError ({ r with
            state := .idle
            chunks := []
            elapsedSeconds := 0
            pendingStarts := 0 } : Recorder) e).2.1) := by
      simp [step, hp, startResume, hd]
    rw [hres]
    have hfields := handleError_fields ({ r with
        state := .idle
        chunks := []
        elapsedSeconds := 0
        pendingStarts := 0 } : Recorder) e (by simpa using hwb)
    refine ⟨hfields.1, ?_⟩
    simp only [List.countP_append, hfields.2]
    simp [isErrorEv]
  · intro s hswb hv
    rw [run_pair, hinv]
    have hres : step ({ r with
        state := .idle
        chunks := []
        elapsedSeconds := 0
        pendingStarts := r.pendingStarts + 1 } : Recorder)
          (.resumeStart (.granted s true)) =
        ((handleError ({ r with
            state := .idle
            chunks := []
            elapsedSeconds := 0
            pendingStarts := 0
            stream := some s } : Recorder)
          ⟨"TypeError", "Cannot set properties of undefined (setting onended)"⟩).1,
         (handleError ({ r with
            state := .idle
            chunks := []
            elapsedSeconds := 0
            pendingStarts := 0
            stream := some s } : Recorder)
          ⟨"TypeError", "Cannot set properties of undefined (setting onended)"⟩).2.1) := by
      simp [step, hp, startResume, hv]
    rw [hres]
    have hfields := handleError_fields ({ r with
        state := .idle
        chunks := []
        elapsedSeconds := 0
        pendingStarts := 0
        stream := some s } : Recorder)
      ⟨"TypeError", "Cannot set properties of undefined (setting onended)"⟩
      (by simpa using hswb)
    refine ⟨hfields.1, ?_⟩
    simp only [List.countP_append, hfields.2]
    simp [isErrorEv]
  · intro s hswb hv
    rw [run_pair, hinv]
    cases hpe : r.previewElement with
    | false =>
        have hres : step ({ r with
            state := .idle
            chunks := []
            elapsedSeconds := 0
            previewElement := false
            pendingStarts := r.pendingStarts + 1 } : Recorder)
              (.resumeStart (.granted s false)) =
            ((handleError ({ r with
                state := .idle
                chunks := []
                elapsedSeconds := 0
                previewElement := false
                pendingStarts := 0
                stream := some s
                videoOnendedHooked := true
                mediaRecorder := some { active := !false, stopRequested := false } } : Recorder)
              ⟨"Error", "MediaRecorder is not in inactive state"⟩).1,
             (handleError ({ r with
                state := .idle
                chunks := []
                elapsedSeconds := 0
                previewElement := false
                pendingStarts := 0
                stream := some s
                videoOnendedHooked := true
                mediaRecorder := some { active := !false, stopRequested := false } } : Recorder)
              ⟨"Error", "MediaRecorder is not in inactive state"⟩).2.1) := by
          simp [step, hp, startResume, hv, hpe]
        rw [hres]
        have hfields := handleError_fields ({ r with
            state := .idle
            chunks := []
            elapsedSeconds := 0
            previewElement := false
            pendingStarts := 0
            stream := some s
            videoOnendedHooked := true
            mediaRecorder := some { active := !false, stopRequested := false } } : Recorder)
          ⟨"Error", "MediaRecorder is not in inactive state"⟩ (by simpa using hswb)
        refine ⟨hfields.1, ?_⟩
        simp only [List.countP_append, hfields.2]
        simp [isErrorEv]
    | true =>
        have hres : step ({ r with
            state := .idle
            chunks := []
            elapsedSeconds := 0
            previewElement := true
            pendingStarts := r.pendingStarts + 1 } : Recorder)
              (.resumeStart (.granted s false)) =
            ((handleError ({ r with
                state := .idle
                chunks := []
                elapsedSeconds := 0
                previewElement := true
                pendingStarts := 0
                stream := some s
                videoOnendedHooked := true
                previewSrc := some s.id
                mediaRecorder := some { active := !false, stopRequested := false } } : Recorder)
              ⟨"Error", "MediaRecorder is not in inactive state"⟩).1,
             (handleError ({ r with
                state := .idle
                chunks := []
                elapsedSeconds := 0
                previewElement := true
                pendingStarts := 0
                stream := some s
                videoOnendedHooked := true
                previewSrc := some s.id
                mediaRecorder := some { active := !false, stopRequested := false } } : Recorder)
              ⟨"Error", "MediaRecorder is not in inactive state"⟩).2.1) := by
          simp [step, hp, startResume, hv, hpe]
        rw [hres]
        have hfields := handleError_fields ({ r with
            state := .idle
            chunks := []
            elapsedSeconds := 0
            previewElement := true
            pendingStarts := 0
            stream := some s
            videoOnendedHooked := true
            previewSrc := some s.id
            mediaRecorder := some { active := !false, stopRequested := false } } : Recorder)
          ⟨"Error", "MediaRecorder is not in inactive state"⟩ (by simpa using hswb)
        refine ⟨hfields.1, ?_⟩
        simp only [List.countP_append, hfields.2]
        simp [isErrorEv]

/-- C5 holds on concrete denial and hardware failures from a fresh
session. -/
theorem C5_denial_vs_error_witness :
    Recorder.init.pendingStarts = 0 ∧
    Recorder.init.state ≠ .recording ∧
    ((run Recorder.init
        [.invokeStart, .resumeStart (.denied ⟨"NotAllowedError", "x"⟩)]).1.state = .idle ∧
     (run Recorder.init
        [.invokeStart, .resumeStart (.denied ⟨"NotAllowedError", "x"⟩)]).2.countP
       (fun o => isErrorEv o.ev) = 0) ∧
    ((run Recorder.init
        [.invokeStart, .resumeStart (.denied ⟨"NotReadableError", "hw"⟩)]).1.state = .error ∧
     (run Recorder.init
        [.invokeStart, .resumeStart (.denied ⟨"NotReadableError", "hw"⟩)]).2.countP
       (fun o => isErrorEv o.ev) = 1) := by
  have h1 := C5_denial_vs_error Recorder.init ⟨"NotAllowedError", "x"⟩
    (by decide) (by decide) (by decide)
  have h2 := C5_denial_vs_error Recorder.init ⟨"NotReadableError", "hw"⟩
    (by decide) (by decide) (by decide)
  exact ⟨rfl, by decide, h1.1 (by decide), h2.2.1 (by decide)⟩

/-- C6: when the encoder's stop-completion fires, the finalize sequence
is exactly: stop the timer, stop every capture track in order, detach
the preview sink, assemble the chunks (in arrival order) into the
result blob, clear the chunk buffer, transition to `idle`, and deliver
the blob via the finished-artifact callback; the chunk buffer is empty
immediately after finalize and after `dispose()`, and each data
callback appends its chunk at the end of the buffer. -/
theorem C6_finalize_sequence (r : Recorder) (m : MRec)
    (hm : r.mediaRecorder = some m) (hsrq : m.stopRequested = true)
    (hwb : (match r.stream with | some s => streamWB s | none => true) = true) :
    (step r .recStopped).2 =
      releaseObs r ++
        [⟨.onStateChange .idle, .idle, none⟩, ⟨.onStop r.chunks, .idle, none⟩] ∧
    (step r .recStopped).1.chunks = [] ∧
    (step r .recStopped).1.stream = none ∧
    (step r .recStopped).1.timerInterval = none ∧
    (step r .recStopped).1.state = .idle ∧
    (r.previewElement = true → (step r .recStopped).1.previewSrc = none) ∧
    (dispose r).1.chunks = [] ∧
    (∀ n, 0 < n → (dataAvailable r n).1.chunks = r.chunks ++ [n]) := by
  have hstep : step r .recStopped =
      ((handleRecordingStopped ({ r with mediaRecorder := some ⟨false, false⟩ } : Recorder)).1,
       (handleRecordingStopped ({ r with mediaRecorder := some ⟨false, false⟩ } : Recorder)).2.1) := by
    simp [step, hm, hsrq]
  rw [hstep]
  rw [handleRecordingStopped_wb _ (by simpa using hwb)]
  rw [dispose_wb r hwb]
  refine ⟨?_, rfl, rfl, rfl, rfl, ?_, rfl, ?_⟩
  · rw [releaseObs_mr]
  · intro hpe
    simp [hpe]
  · intro n hn
    simp [dataAvailable, hn]

/-- C6 holds on a concrete stopping session with two buffered chunks. -/
theorem C6_finalize_sequence_witness :
    ({ rRec with
        state := .stopping
        mediaRecorder := some ⟨true, true⟩ } : Recorder).mediaRecorder =
      some ⟨true, true⟩ ∧
    (step ({ rRec with
        state := .stopping
        mediaRecorder := some ⟨true, true⟩ } : Recorder) .recStopped).1.chunks = [] ∧
    (step ({ rRec with
        state := .stopping
        mediaRecorder := some ⟨true, true⟩ } : Recorder) .recStopped).2 =
      releaseObs ({ rRec with
        state := .stopping
        mediaRecorder := some ⟨true, true⟩ } : Recorder) ++
        [⟨.onStateChange .idle, .idle, none⟩, ⟨.onStop [3, 5], .idle, none⟩] := by
  have h := C6_finalize_sequence ({ rRec with
      state := .stopping
      mediaRecorder := some ⟨true, true⟩ } : Recorder) ⟨true, true⟩ rfl rfl (by decide)
  exact ⟨rfl, h.2.1, h.1⟩

/-- A capture stream whose first track raises on `stop()`. -/
def sThrow : MStream := ⟨5, [⟨.audio, true⟩, ⟨.video, false⟩]⟩

/-- A session holding the raising stream while stopping. -/
def rThrow : Recorder :=
  { Recorder.init with
      state := .stopping
      stream := some sThrow
      mediaRecorder := some ⟨true, true⟩ }

/-- C2: the claimed partial-failure tolerance fails on the code. When
the first track's `stop()` raises, `cleanupStream` stops releasing: the
remaining track is never stopped (the effect list is empty), the error
is escalated to the caller rather than swallowed, and the stream field
stays set. -/
theorem C2_counterexample :
    (cleanupStream rThrow).2.1 = [] ∧
    (cleanupStream rThrow).2.2 = some ⟨"Error", "track stop failed"⟩ ∧
    (cleanupStream rThrow).1.stream = some sThrow := by
  decide

/-- C2 (amended): capture release stops tracks in order only up to the
first raising track — if the first track's `stop()` raises, no track
stop is recorded, the error propagates to the caller, and the stream
stays held; only when no track raises is every track stopped and the
stream cleared. -/
theorem C2_amended (r : Recorder) (s : MStream) (hs : r.stream = some s) :
    (∀ t rest, s.tracks = t :: rest → t.stopThrows = true →
      cleanupStream r = (r, [], some ⟨"Error", "track stop failed"⟩)) ∧
    (streamWB s = true →
      cleanupStream r =
        ({ r with stream := none },
         (List.range s.tracks.length).map
           (fun j => (⟨.trackStop s.id j, r.state, some s.id⟩ : Obs)),
         none)) := by
  refine ⟨?_, ?_⟩
  · intro t rest htr hthrow
    simp [cleanupStream, hs, htr, stopTracks, hthrow]
  · intro hwb
    rw [cleanupStream_wb r s hs hwb]
    simp [emit, hs]

/-- C2 (amended) holds on the raising stream and on a clean stream. -/
theorem C2_amended_witness :
    rThrow.stream = some sThrow ∧
    cleanupStream rThrow = (rThrow, [], some ⟨"Error", "track stop failed"⟩) ∧
    rRec.stream = some sVA ∧
    (cleanupStream rRec).1.stream = none ∧
    (cleanupStream rRec).2.2 = none := by
  refine ⟨rfl, (C2_amended rThrow sThrow rfl).1 _ _ rfl rfl, rfl, ?_, ?_⟩ <;>
    rw [(C2_amended rRec sVA rfl).2 (by decide)]

/-! ## The standalone App.tsx startRecording variant (audio check) -/

/-- The `stream.getTracks().forEach(t => t.stop())` loop of the
standalone startRecording in App.tsx (line 62): indices of the tracks
stopped, in order, aborting at the first raising track. -/
def appStopAll : List Track → Nat → List Nat × Option JsErr
  | [], _ => ([], none)
  | t :: rest, i =>
      if t.stopThrows then
        ([], some ⟨"Error", "track stop failed"⟩)
      else
        let (is, e) := appStopAll rest (i + 1)
        (i :: is, e)

/-- `stream.getAudioTracks()` for the model stream. -/
def getAudioTracks (s : MStream) : List Track :=
  s.tracks.filter (fun t => t.kind = .audio)

/-- The System-Audio-missing error thrown by the standalone
startRecording (App.tsx line 63; inner quotation marks elided). -/
def sysAudioErr : JsErr :=
  ⟨"Error",
   "System Audio missing. You MUST check Share system audio in the browser dialog."⟩

/-- The audio validation of the standalone startRecording variant in
App.tsx (lines 57-64): if the granted stream has zero audio tracks,
stop every track immediately and throw the System-Audio-missing error;
otherwise pass. -/
def appAudioCheck (s : MStream) : List Nat × Option JsErr :=
  if (getAudioTracks s).length = 0 then
    let (is, e) := appStopAll s.tracks 0
    match e with
    | some err => (is, some err)
    | none => (is, some sysAudioErr)
  else ([], none)

theorem appStopAll_wb (ts : List Track) (i : Nat)
    (h : ts.all (fun t => !t.stopThrows) = true) :
    appStopAll ts i = ((List.range ts.length).map (fun j => i + j), none) := by
  induction ts generalizing i with
  | nil => simp [appStopAll]
  | cons t rest ih =>
      simp only [List.all_cons, Bool.and_eq_true, Bool.not_eq_true'] at h
      simp only [appStopAll, h.1, ih _ h.2]
      simp only [List.length_cons, List.range_succ_eq_map, List.map_cons, List.map_map,
        if_false, Bool.false_eq_true]
      refine Prod.ext ?_ rfl
      simp only []
      refine List.cons_eq_cons.mpr ⟨by simp, ?_⟩
      apply List.map_congr_left
      intro a _
      have h' : i + 1 + a = i + (a + 1) := by omega
      simp [Function.comp_apply, Nat.succ_eq_add_one, h']

/-- A granted stream with a single well-behaved video track and no
audio track. -/
def sVonly : MStream := ⟨7, [⟨.video, false⟩]⟩

/-- Events of a start that is granted a zero-audio-track stream. -/
def c3events : List REvent := [.invokeStart, .resumeStart (.granted sVonly true)]

/-- C3: the claimed zero-audio behavior fails on `RecorderService`.
A start granted a capture stream with zero audio tracks silently
reaches state `recording`: no error callback of any kind fires and no
warning is logged — neither of the two documented outcomes happens. -/
theorem C3_counterexample :
    getAudioTracks sVonly = [] ∧
    (run Recorder.init c3events).1.state = .recording ∧
    (run Recorder.init c3events).2.countP
      (fun o => isErrorEv o.ev || isWarnEv o.ev) = 0 := by
  decide

/-- C3 (amended): `RecorderService.start` performs no audio-track
validation at all — any granted stream with a video track and zero
audio tracks starts successfully with neither an AudioMissing-style
error nor a warning; the documented rejection exists only in the
standalone App.tsx startRecording variant, which stops every granted
track and throws the System-Audio-missing error when zero audio tracks
are present. -/
theorem C3_amended :
    (∀ s, hasVideoTrack s = true → getAudioTracks s = [] →
      (run Recorder.init [.invokeStart, .resumeStart (.granted s true)]).1.state =
        .recording ∧
      (run Recorder.init [.invokeStart, .resumeStart (.granted s true)]).2.countP
        (fun o => isErrorEv o.ev || isWarnEv o.ev) = 0) ∧
    (∀ s, streamWB s = true → getAudioTracks s = [] →
      appAudioCheck s = (List.range s.tracks.length, some sysAudioErr)) := by
  refine ⟨?_, ?_⟩
  · intro s hv _
    rw [run_pair]
    have hinv : step Recorder.init .invokeStart =
        ({ Recorder.init with pendingStarts := 1 },
         [⟨.onStateChange .idle, .idle, none⟩]) := by
      simp [step, startInvoke, Recorder.init, setState, emit]
    rw [hinv]
    have hres : step ({ Recorder.init with pendingStarts := 1 } : Recorder)
          (.resumeStart (.granted s true)) =
        ({ Recorder.init with
            stream := some s
            videoOnendedHooked := true
            mediaRecorder := some { active := true, stopRequested := false }
            state := .recording
            timerInterval := some 0
            activeIntervals := [0]
            nextTimerId := 1 },
         [⟨.onStateChange .recording, .recording, some s.id⟩,
          ⟨.onTimeUpdate 0, .recording, some s.id⟩]) := by
      simp [step, startResume, Recorder.init, hv, setState, startTimer, emit]
    rw [hres]
    refine ⟨rfl, ?_⟩
    simp [isErrorEv, isWarnEv]
  · intro s hwb ha
    simp only [appAudioCheck, ha, List.length_nil, if_pos rfl]
    rw [appStopAll_wb s.tracks 0 hwb]
    simp

/-- C3 (amended) holds on the concrete zero-audio stream. -/
theorem C3_amended_witness :
    hasVideoTrack sVonly = true ∧
    getAudioTracks sVonly = [] ∧
    streamWB sVonly = true ∧
    (run Recorder.init [.invokeStart, .resumeStart (.granted sVonly true)]).1.state =
      .recording ∧
    appAudioCheck sVonly = (List.range 1, some sysAudioErr) :=
  ⟨by decide, by decide, by decide,
   (C3_amended.1 sVonly (by decide) (by decide)).1,
   C3_amended.2 sVonly (by decide) (by decide)⟩

/-! ## geminiService.ts: extractResponseText over JS runtime values -/

/-- Model of a JavaScript runtime value as `extractResponseText`
inspects it: undefined, null, booleans, numbers (an `Int` model — the
code performs no arithmetic, so NaN never arises from these inputs),
strings, arrays and plain objects with string-keyed fields. -/
inductive JSVal where
  | vUndef
  | vNull
  | vBool (b : Bool)
  | vNum (n : Int)
  | vStr (s : String)
  | vArr (elems : List JSVal)
  | vObj (fields : List (String × JSVal))

/-- JS truthiness test `!response` (negated): undefined, null, false,
0 and the empty string are falsy; every object and array is truthy. -/
def jsFalsy : JSVal → Bool
  | .vUndef => true
  | .vNull => true
  | .vBool b => !b
  | .vNum n => n == 0
  | .vStr s => s == ""
  | .vArr _ => false
  | .vObj _ => false

/-- JS `String(x)` conversion. Arrays join their elements with commas,
rendering null/undefined elements as empty; plain objects render as
the literal `[object Object]`. -/
def jsToString : JSVal → String
  | .vUndef => "undefined"
  | .vNull => "null"
  | .vBool b => if b then "true" else "false"
  | .vNum n => toString n
  | .vStr s => s
  | .vObj _ => "[object Object]"
  | .vArr es =>
      String.intercalate ","
        (es.attach.map (fun p =>
          match p with
          | ⟨.vUndef, _⟩ => ""
          | ⟨.vNull, _⟩ => ""
          | ⟨e, _⟩ => jsToString e))
decreasing_by
  rename_i he
  have h := List.sizeOf_lt_of_mem he
  simp only [JSVal.vArr.sizeOf_spec]
  omega

/-- Property lookup on an object's field list (`key in obj` holds iff
the lookup is `some`). -/
def lookupField : List (String × JSVal) → String → Option JSVal
  | [], _ => none
  | (k, v) :: rest, key => if k = key then some v else lookupField rest key

theorem sizeOf_lookupField {fs : List (String × JSVal)} {k : String} {v : JSVal}
    (h : lookupField fs k = some v) : sizeOf v < sizeOf fs := by
  induction fs with
  | nil => simp [lookupField] at h
  | cons p rest ih =>
      obtain ⟨k', v'⟩ := p
      simp only [lookupField] at h
      by_cases hk : k' = k
      · rw [if_pos hk] at h
        cases h
        simp
        omega
      · rw [if_neg hk] at h
        have := ih h
        simp
        omega

/-- The `'text' in resp && resp.text !== undefined` test (geminiService
line 98): the defined value of the `text` field, when the check passes. -/
def textHit (fields : List (String × JSVal)) : Option JSVal :=
  match lookupField fields "text" with
  | some .vUndef => none
  | some t => some t
  | none => none

/-- The `'response' in resp && resp.response` test (line 103): the
truthy value of the `response` field, when the check passes. -/
def respHit (fields : List (String × JSVal)) : Option JSVal :=
  match lookupField fields "response" with
  | some rv => if jsFalsy rv then none else some rv
  | none => none

/-- The optional-chain `candidates[0]?.content?.parts?.[0]?.text`
(lines 109-111): the truthy text value, when every link is present. -/
def candHit (fields : List (String × JSVal)) : Option JSVal :=
  match lookupField fields "candidates" with
  | some (.vArr cands) =>
      match cands.head? with
      | some (.vObj cf) =>
          match lookupField cf "content" with
          | some (.vObj contentf) =>
              match lookupField contentf "parts" with
              | some (.vArr parts) =>
                  match parts.head? with
                  | some (.vObj pf) =>
                      match lookupField pf "text" with
                      | some t => if jsFalsy t then none else some t
                      | none => none
                  | _ => none
              | _ => none
          | _ => none
      | _ => none
  | _ => none

/-- The final fallback `String(response)` with the `[object Object]`
rejection (lines 117-122). -/
def fallbackString (v : JSVal) : Except String String :=
  let fs := jsToString v
  if fs = "[object Object]" then .error "Unable to extract text from API response"
  else .ok fs

theorem sizeOf_respHit {fs : List (String × JSVal)} {v : JSVal}
    (h : respHit fs = some v) : sizeOf v < sizeOf fs := by
  unfold respHit at h
  cases hl : lookupField fs "response" with
  | none => rw [hl] at h; cases h
  | some rv =>
      rw [hl] at h
      simp only [Option.some.injEq] at h
      split at h
      · cases h
      · cases h
        exact sizeOf_lookupField hl

/-- extractResponseText (geminiService.ts lines 83-123): reject falsy
inputs, return strings directly, inspect objects for a `text` field, a
truthy nested `response` (recursively), or a `candidates` array, and
otherwise force a string conversion, rejecting `[object Object]`. -/
def extractResponseText (v : JSVal) : Except String String :=
  if jsFalsy v then .error "Empty response from API"
  else
    match v with
    | .vStr s => .ok s
    | .vObj fields =>
        match textHit fields with
        | some t => .ok (jsToString t)
        | none =>
            match hr : respHit fields with
            | some rv => extractResponseText rv
            | none =>
                match candHit fields with
                | some t => .ok (jsToString t)
                | none => fallbackString (.vObj fields)
    | other => fallbackString other
termination_by sizeOf v
decreasing_by
  have := sizeOf_respHit hr
  simp only [JSVal.vObj.sizeOf_spec]
  omega

/-- C10: `extractResponseText` rejects every falsy input with the
`Empty response from API` error — in particular the empty string (a
valid string response) is thrown on rather than returned — and any
string input it does accept is returned unchanged and is necessarily
non-empty. -/
theorem C10_extract_falsy :
    (∀ v, jsFalsy v = true →
      extractResponseText v = .error "Empty response from API") ∧
    extractResponseText (.vStr "") = .error "Empty response from API" ∧
    (∀ s t, extractResponseText (.vStr s) = .ok t → t = s ∧ s ≠ "") := by
  have hfal : ∀ v, jsFalsy v = true →
      extractResponseText v = .error "Empty response from API" := by
    intro v hv
    unfold extractResponseText
    rw [if_pos hv]
  refine ⟨hfal, hfal _ (by decide), ?_⟩
  intro s t h
  by_cases hs : s = ""
  · rw [hs] at h
    rw [hfal (.vStr "") (by decide)] at h
    cases h
  · unfold extractResponseText at h
    rw [if_neg (by simp [jsFalsy, hs])] at h
    simp only [Except.ok.injEq] at h
    exact ⟨h.symm, hs⟩

/-- C10 holds at the empty string and at a concrete non-empty string. -/
theorem C10_extract_falsy_witness :
    jsFalsy (.vNum 0) = true ∧
    extractResponseText (.vNum 0) = .error "Empty response from API" ∧
    extractResponseText (.vStr "") = .error "Empty response from API" ∧
    (extractResponseText (.vStr "ok") = .ok "ok" → "ok" = "ok" ∧ "ok" ≠ "") :=
  ⟨by decide, C10_extract_falsy.1 (.vNum 0) (by decide), C10_extract_falsy.2.1,
   C10_extract_falsy.2.2 "ok" "ok"⟩

end LectureSense
